import Mathlib

/-!
Verification development for the oi-benchmarks coordination core
(`coordinators.py`): the `WebSocketsManager` broadcast channel, the
`TaskLifecycle` hook wrapper, `run_task`, and the two worker-pool
coordinators `run_benchmark_worker_pool` and
`run_benchmark_worker_pool_with_server`.

Modelling conventions:
- every channel operation in the source runs under `self._lock`, so each
  operation is embedded as one atomic state transition;
- websocket handles are `Nat`; the payload type of a channel is a type
  parameter (`Nat` standing for raw bytes on per-task channels,
  `TaskUpdate` for the JSON-encoded updates channel);
- delivery failure of `ws.send_bytes` (the `WebSocketDisconnect` /
  `RuntimeError` cases of `_send_bytes_to`) is modelled by a predicate
  `failed : Nat → Bool` saying which websockets reject sends;
- successful deliveries and disconnect-event signals are returned as an
  explicit event trace (`WSEvent`);
- `datetime.now()` is a monotone counter threaded through the state;
- the process logger and the opaque runner are represented by explicit
  log/result data in the state.
-/

/-- One observable side effect of a channel operation: a successful
`ws.send_bytes` delivery, or an `asyncio.Event.set()` on a subscriber's
disconnect event. -/
inductive WSEvent (β : Type) where
  | sent (ws : Nat) (b : β)
  | signalled (ws : Nat)
deriving DecidableEq

/-- State of `WebSocketsManager`: the append-only `_history`, the
`_websockets` set (a duplicate-free list), the `_disconnect_events`
dict (an association list from websocket to whether its event is set),
and the `_is_closed` flag. -/
structure WSManager (β : Type) where
  history : List β
  websockets : List Nat
  disconnect_events : List (Nat × Bool)
  is_closed : Bool
deriving DecidableEq

/-- Lookup in the `_disconnect_events` dict. -/
def lookupEvent (ws : Nat) : List (Nat × Bool) → Option Bool
  | [] => none
  | (w, v) :: rest => if w = ws then some v else lookupEvent ws rest

/-- Deletion (`del d[ws]`) in the `_disconnect_events` dict (keys are
unique in a Python dict, so removing every matching entry is the same as
removing the one entry). -/
def eraseKey (ws : Nat) : List (Nat × Bool) → List (Nat × Bool)
  | [] => []
  | (w, v) :: rest => if w = ws then eraseKey ws rest else (w, v) :: eraseKey ws rest

/-- Assignment `d[ws] = v` in the `_disconnect_events` dict. -/
def setKey (ws : Nat) (v : Bool) (l : List (Nat × Bool)) : List (Nat × Bool) :=
  eraseKey ws l ++ [(ws, v)]

/-- A fresh `WebSocketsManager()`. -/
def WSManager.init (β : Type) : WSManager β :=
  { history := [], websockets := [], disconnect_events := [], is_closed := false }

/-- `WebSocketsManager.add`: under the lock, insert the websocket into the
subscriber set, give it a fresh (unset) disconnect event, and replay the
entire history to it via `_send_bytes_to` (whose return value `add`
ignores, so a failed replay send does not remove the subscriber). -/
def WSManager.add (failed : Nat → Bool) (ws : Nat) (st : WSManager β) :
    WSManager β × List (WSEvent β) :=
  ({ st with
      websockets := if ws ∈ st.websockets then st.websockets else st.websockets ++ [ws],
      disconnect_events := setKey ws false st.disconnect_events },
   if failed ws then [] else st.history.map (fun b => WSEvent.sent ws b))

/-- `WebSocketsManager._remove`: drop the websocket from the subscriber
set, set its disconnect event, and delete its dict entry. -/
def WSManager._remove (ws : Nat) (st : WSManager β) : WSManager β × List (WSEvent β) :=
  ({ st with
      websockets := st.websockets.erase ws,
      disconnect_events := eraseKey ws st.disconnect_events },
   [WSEvent.signalled ws])

/-- `WebSocketsManager.close`: under the lock, set every attached
subscriber's disconnect event (the dict entries are NOT deleted), mark the
channel closed, and clear the subscriber set. -/
def WSManager.close (st : WSManager β) : WSManager β × List (WSEvent β) :=
  ({ st with
      disconnect_events := st.websockets.foldl (fun d w => setKey w true d) st.disconnect_events,
      is_closed := true,
      websockets := [] },
   st.websockets.map (fun w => WSEvent.signalled w))

/-- Possible behaviours of `await self._disconnect_events[websocket].wait()`:
a `KeyError` on the dict access, an immediate return (event already set), or
suspension until some later `set()`. -/
inductive WaitOutcome where
  | keyError
  | returnsNow
  | blocks
deriving DecidableEq

/-- `WebSocketsManager.wait_until_disconnect`. -/
def WSManager.wait_until_disconnect (ws : Nat) (st : WSManager β) : WaitOutcome :=
  match lookupEvent ws st.disconnect_events with
  | none => WaitOutcome.keyError
  | some true => WaitOutcome.returnsNow
  | some false => WaitOutcome.blocks

/-- `WebSocketsManager.write`: under the lock, append the chunk to history;
if no subscribers, return early; otherwise attempt delivery to every
subscriber, collect the ones whose delivery failed, and remove (and signal)
each of them after the fan-out finishes. -/
def WSManager.write (failed : Nat → Bool) (b : β) (st : WSManager β) :
    WSManager β × List (WSEvent β) :=
  let st1 : WSManager β := { st with history := st.history ++ [b] }
  if st1.websockets.length = 0 then (st1, [])
  else
    let evs := st1.websockets.filterMap
      (fun w => if failed w then none else some (WSEvent.sent w b))
    let to_remove := st1.websockets.filter (fun w => failed w)
    let st2 := to_remove.foldl (fun s w => (WSManager._remove w s).1) st1
    (st2, evs ++ to_remove.map (fun w => WSEvent.signalled w))

/-- Iterated `write`, accumulating the delivery trace. -/
def WSManager.writeAll (failed : Nat → Bool) (bs : List β) (st : WSManager β) :
    WSManager β × List (WSEvent β) :=
  match bs with
  | [] => (st, [])
  | b :: rest =>
    let p1 := st.write failed b
    let p2 := p1.1.writeAll failed rest
    (p2.1, p1.2 ++ p2.2)

/-- The sequence of payloads delivered to one fixed websocket, in trace
order. -/
def sentTo (ws : Nat) (evs : List (WSEvent β)) : List β :=
  evs.filterMap (fun e =>
    match e with
    | WSEvent.sent w b => if w = ws then some b else none
    | WSEvent.signalled _ => none)

/-- Opaque log-message-carrier record (`LMC` in `task.py`); its contents
never matter to the coordination core. -/
abbrev LMC := Nat

/-- The fields of `lt.to_zero_shot()` that the coordinators read. -/
structure ZeroShotTask where
  id : String
  prompt : String
deriving DecidableEq

/-- A `TaskResult` record as built by `run_task` (status is the literal
string the code stores, e.g. `"error"`; `command` is opaque). -/
structure TaskResult where
  task_id : String
  command : Nat
  prompt : String
  start : Nat
  end_ : Nat
  messages : List LMC
  status : String
deriving DecidableEq

/-- Thread-local observable context of the headless `run_task`: the strings
handed to the `log` callback, and a monotone clock standing for
`datetime.now()`. -/
structure TaskEnv where
  logged : List String
  clock : Nat
deriving DecidableEq

/-- Behaviour of one `run_and_judge` invocation: it transforms the
environment and either returns `(messages, status)` or raises, in which
case the `Except.error` value is the `traceback.format_exc()` string. -/
abbrev RajFun := TaskEnv → TaskEnv × Except String (List LMC × String)

/-- Module-level `run_task`: record the start time, run `run_and_judge`;
on an exception, log the formatted traceback and fall back to
`status = "error"`, `messages = []`; in all cases record the end time and
return the assembled `TaskResult` (the `return` inside `finally` means the
function never raises). -/
def run_task (zs : ZeroShotTask) (cmd : Nat) (raj : RajFun) (e0 : TaskEnv) :
    TaskEnv × TaskResult :=
  let startT := e0.clock
  let e1 : TaskEnv := { e0 with clock := e0.clock + 1 }
  let res := raj e1
  let e2 : TaskEnv :=
    match res.2 with
    | Except.ok _ => res.1
    | Except.error tr => { res.1 with logged := res.1.logged ++ [tr] }
  let messages : List LMC :=
    match res.2 with
    | Except.ok p => p.1
    | Except.error _ => []
  let status : String :=
    match res.2 with
    | Except.ok p => p.2
    | Except.error _ => "error"
  let endT := e2.clock
  let e3 : TaskEnv := { e2 with clock := e2.clock + 1 }
  (e3, { task_id := zs.id, command := cmd, prompt := zs.prompt,
         start := startT, end_ := endT, messages := messages, status := status })

/-- `TaskLifecycle`: the ordered `_start_fns` / `_done_fns` callback lists.
Callbacks are effectful in Python; here an effect is a transformation of an
explicit state `σ`, and a unit of work is `σ → σ × ρ`. -/
structure TaskLifecycle (σ ρ : Type) where
  start_fns : List (σ → σ)
  done_fns : List (ρ → σ → σ)

/-- `TaskLifecycle.wrap`: the wrapped unit of work runs every start
callback in registration order, then the underlying unit of work, then
every done callback (applied to the produced result) in registration
order, and returns the unit's result unchanged. -/
def TaskLifecycle.wrap (tlc : TaskLifecycle σ ρ) (fn : σ → σ × ρ) : σ → σ × ρ :=
  fun s =>
    let s1 := tlc.start_fns.foldl (fun t f => f t) s
    let p := fn s1
    let s2 := tlc.done_fns.foldl (fun t f => f p.2 t) p.1
    (s2, p.2)

/-- Headless `run_benchmark_worker_pool`, viewed from its result
collection loop: `as_completed` yields the N futures in some completion
order (the `schedule`), and each future's result is appended. The
concurrency limit only constrains which completion orders can occur, never
the collected results, so the model quantifies over the schedule. The
per-task `TaskLifecycle` callbacks of this mode only call the process
logger and are absorbed into `TaskEnv.logged`. -/
def run_benchmark_worker_pool (cmd : Nat) (schedule : List (ZeroShotTask × RajFun))
    (e : TaskEnv) : TaskEnv × List TaskResult :=
  match schedule with
  | [] => (e, [])
  | (zs, raj) :: rest =>
    let p1 := run_task zs cmd raj e
    let p2 := run_benchmark_worker_pool cmd rest p1.1
    (p2.1, p1.2 :: p2.2)

/-- Payload of a `TaskUpdate` JSON message on the updates channel. -/
inductive TaskUpdatePayload where
  | started
  | done (status : String)
  | log (message : String)
deriving DecidableEq

/-- A `TaskUpdate` message (`write_json` argument, prior to encoding). -/
structure TaskUpdate where
  task_id : String
  payload : TaskUpdatePayload
deriving DecidableEq

/-- Lookup in a task-id-keyed map of channel managers (`task_managers`). -/
def lookupM (id : String) : List (String × WSManager Nat) → Option (WSManager Nat)
  | [] => none
  | (k, m) :: rest => if k = id then some m else lookupM id rest

/-- The coordinator's internal channel writes never hit a failing
downstream in this model; observer-side delivery failure is analysed at
the channel level. -/
def noFail : Nat → Bool := fun _ => false

/-- In-place update `task_managers[id].write(b)`. -/
def writeTo (id : String) (b : Nat) : List (String × WSManager Nat) →
    List (String × WSManager Nat)
  | [] => []
  | (k, m) :: rest =>
    if k = id then (k, (WSManager.write noFail b m).1) :: writeTo id b rest
    else (k, m) :: writeTo id b rest

/-- In-place update `task_managers[id].close()`. -/
def closeManager (id : String) : List (String × WSManager Nat) →
    List (String × WSManager Nat)
  | [] => []
  | (k, m) :: rest =>
    if k = id then (k, (WSManager.close m).1) :: closeManager id rest
    else (k, m) :: closeManager id rest

/-- Shared state of `run_benchmark_worker_pool_with_server`: the
`task_results` list guarded by `results_lock`, the per-task channel map,
the shared updates channel, the `done_event`, and the global clock. -/
structure CoordState where
  clock : Nat
  task_results : List TaskResult
  task_managers : List (String × WSManager Nat)
  updates_manager : WSManager TaskUpdate
  done_event : Bool
deriving DecidableEq

/-- What one task's execution does when a worker runs it: the bytes its
runner pushes through the `write` callback onto the task's own channel,
the progress strings it passes to the `log` callback, and the final
outcome of `run_and_judge` (`Except.error` carries the formatted
traceback of a raised exception). -/
structure TaskBehavior where
  zs : ZeroShotTask
  writes : List Nat
  logs : List String
  outcome : Except String (List LMC × String)

/-- `make_update_fns.start`: announce `{"tag": "started"}` on the updates
channel. -/
def startFn (id : String) (st : CoordState) : CoordState :=
  { st with updates_manager :=
      (st.updates_manager.write noFail { task_id := id, payload := TaskUpdatePayload.started }).1 }

/-- `make_update_fns.log`: publish `{"tag": "log", "message": s}` on the
updates channel (note: this callback does not touch the task's own
channel). -/
def logFn (id : String) (s : String) (st : CoordState) : CoordState :=
  { st with updates_manager :=
      (st.updates_manager.write noFail { task_id := id, payload := TaskUpdatePayload.log s }).1 }

/-- `make_update_fns.done`: announce `{"tag": "done", "status": ...}` on
the updates channel, append the result under `results_lock`, close this
task's own channel, and set `done_event` once the result count reaches the
task count. -/
def doneFn (n : Nat) (id : String) (r : TaskResult) (st : CoordState) : CoordState :=
  let st1 : CoordState := { st with updates_manager :=
      (st.updates_manager.write noFail { task_id := id, payload := TaskUpdatePayload.done r.status }).1 }
  let st2 : CoordState := { st1 with task_results := st1.task_results ++ [r] }
  let st3 : CoordState := { st2 with task_managers := closeManager id st2.task_managers }
  if n ≤ st3.task_results.length then { st3 with done_event := true } else st3

/-- The inner `run_task` of `run_benchmark_worker_pool_with_server`:
record the start time; the runner streams its bytes to the task's own
channel and its progress strings to the `log` callback; if
`run_and_judge` raises, the formatted traceback is passed to `log` and the
result falls back to `status = "error"`, `messages = []`; the end time is
recorded and the `TaskResult` returned in every case. -/
def runTaskServer (cmd : Nat) (tb : TaskBehavior) (st0 : CoordState) :
    CoordState × TaskResult :=
  let startT := st0.clock
  let st1 : CoordState := { st0 with clock := st0.clock + 1 }
  let st2 : CoordState := { st1 with task_managers :=
      (tb.writes.foldl (fun ms b => writeTo tb.zs.id b ms) st1.task_managers) }
  let st3 := tb.logs.foldl (fun s m => logFn tb.zs.id m s) st2
  let st4 :=
    match tb.outcome with
    | Except.ok _ => st3
    | Except.error tr => logFn tb.zs.id tr st3
  let messages : List LMC :=
    match tb.outcome with
    | Except.ok p => p.1
    | Except.error _ => []
  let status : String :=
    match tb.outcome with
    | Except.ok p => p.2
    | Except.error _ => "error"
  let endT := st4.clock
  let st5 : CoordState := { st4 with clock := st4.clock + 1 }
  (st5, { task_id := tb.zs.id, command := cmd, prompt := tb.zs.prompt,
          start := startT, end_ := endT, messages := messages, status := status })

/-- One worker slot executing one task end to end: exactly the code's
`pool.submit(tlc.wrap(run_task), *args)` with the start/done callbacks of
`make_update_fns` registered on a fresh `TaskLifecycle`. -/
def stepTask (cmd : Nat) (n : Nat) (tb : TaskBehavior) (st : CoordState) : CoordState :=
  let tlc : TaskLifecycle CoordState TaskResult :=
    { start_fns := [startFn tb.zs.id], done_fns := [fun r s => doneFn n tb.zs.id r s] }
  (tlc.wrap (runTaskServer cmd tb) st).1

/-- The interleaved execution of the submitted tasks, abstracted to the
order in which the workers complete them (`schedule`); the bounded pool
only constrains which schedules occur. -/
def runServerSteps (cmd : Nat) (n : Nat) (schedule : List TaskBehavior)
    (st : CoordState) : CoordState :=
  schedule.foldl (fun s tb => stepTask cmd n tb s) st

/-- Initial shared state of `run_benchmark_worker_pool_with_server`: one
fresh channel per task id, a fresh updates channel, no results, the
`done_event` clear. -/
def initState (tasks : List TaskBehavior) : CoordState :=
  { clock := 0, task_results := [],
    task_managers := tasks.map (fun tb => (tb.zs.id, WSManager.init Nat)),
    updates_manager := WSManager.init TaskUpdate,
    done_event := false }

/-- The block the main thread runs after `done_event.wait()` returns:
close every per-task channel again, then close the updates channel. -/
def finalClose (st : CoordState) : CoordState :=
  { st with
      task_managers := st.task_managers.map (fun p => (p.1, (WSManager.close p.2).1)),
      updates_manager := (st.updates_manager.close).1 }

/-- `run_benchmark_worker_pool_with_server`, from submission to the state
in which `task_results` is returned (the code additionally sleeps until a
`KeyboardInterrupt` before actually returning; that wait changes no state
modelled here). -/
def run_benchmark_worker_pool_with_server (cmd : Nat) (tasks : List TaskBehavior)
    (schedule : List TaskBehavior) : CoordState :=
  finalClose (runServerSteps cmd tasks.length schedule (initState tasks))

/-- How an observer request can fail: an explicit `HTTPException(404)`
raised by the handler, or an uncaught Python `KeyError` from an unchecked
dict access (which the serving framework turns into an internal error for
that one request/connection; the process survives). -/
inductive HandlerError where
  | httpNotFound (detail : String)
  | pyKeyError (key : String)
deriving DecidableEq

/-- Lookup in the `zs_map` dict of zero-shot task records. -/
def lookupZS (id : String) : List (String × ZeroShotTask) → Option ZeroShotTask
  | [] => none
  | (k, z) :: rest => if k = id then some z else lookupZS id rest

/-- The `GET /view/{task_id}` handler: an explicit membership check that
raises `HTTPException(404)` for an unknown id, otherwise the rendered
template context `(task_id, prompt, command)`. -/
def view (zs_map : List (String × ZeroShotTask)) (cmd : Nat) (task_id : String) :
    Except HandlerError (String × String × Nat) :=
  match lookupZS task_id zs_map with
  | none => Except.error (HandlerError.httpNotFound ("no task with id " ++ task_id ++ "!"))
  | some zs => Except.ok (task_id, zs.prompt, cmd)

/-- The `WS /logs/{task_id}` handler: `task_managers[task_id]` is indexed
without a membership check, so an unknown id raises `KeyError`; otherwise
the websocket is attached and the handler suspends on
`wait_until_disconnect`. -/
def logs (failed : Nat → Bool) (managers : List (String × WSManager Nat))
    (task_id : String) (ws : Nat) :
    Except HandlerError (WSManager Nat × List (WSEvent Nat) × WaitOutcome) :=
  match lookupM task_id managers with
  | none => Except.error (HandlerError.pyKeyError task_id)
  | some m =>
    let p := m.add failed ws
    Except.ok (p.1, p.2, p.1.wait_until_disconnect ws)

/-- The `POST /stop/{task_id}` handler: `task_managers[task_id]` is
indexed without a membership check, so an unknown id raises `KeyError`;
otherwise that task's channel is closed and `True` returned. -/
def stop (managers : List (String × WSManager Nat)) (task_id : String) :
    Except HandlerError (List (String × WSManager Nat) × Bool) :=
  match lookupM task_id managers with
  | none => Except.error (HandlerError.pyKeyError task_id)
  | some _ => Except.ok (closeManager task_id managers, true)

/-! Helper lemmas about the `_disconnect_events` dict operations. -/

theorem lookupEvent_eraseKey_self (ws : Nat) (l : List (Nat × Bool)) :
    lookupEvent ws (eraseKey ws l) = none := by
  induction l with
  | nil => rfl
  | cons p rest ih =>
    obtain ⟨a, v⟩ := p
    by_cases h : a = ws
    · simpa [eraseKey, h] using ih
    · simpa [eraseKey, lookupEvent, h] using ih

theorem lookupEvent_eraseKey_ne (w ws : Nat) (l : List (Nat × Bool)) (h : w ≠ ws) :
    lookupEvent w (eraseKey ws l) = lookupEvent w l := by
  induction l with
  | nil => rfl
  | cons p rest ih =>
    obtain ⟨a, v⟩ := p
    by_cases h1 : a = ws
    · subst h1
      simpa [eraseKey, lookupEvent, Ne.symm h] using ih
    · by_cases h2 : a = w
      · subst h2
        simp [eraseKey, lookupEvent, h1, h]
      · simpa [eraseKey, lookupEvent, h1, h2] using ih

theorem lookupEvent_append (w : Nat) (l1 l2 : List (Nat × Bool)) :
    lookupEvent w (l1 ++ l2) =
      match lookupEvent w l1 with
      | some v => some v
      | none => lookupEvent w l2 := by
  induction l1 with
  | nil => rfl
  | cons p rest ih =>
    obtain ⟨a, v⟩ := p
    by_cases h : a = w
    · simp [lookupEvent, h]
    · simpa [lookupEvent, h] using ih

theorem lookupEvent_setKey_self (ws : Nat) (v : Bool) (l : List (Nat × Bool)) :
    lookupEvent ws (setKey ws v l) = some v := by
  rw [setKey, lookupEvent_append, lookupEvent_eraseKey_self]
  simp [lookupEvent]

theorem lookupEvent_setKey_ne (w ws : Nat) (v : Bool) (l : List (Nat × Bool)) (h : w ≠ ws) :
    lookupEvent w (setKey ws v l) = lookupEvent w l := by
  rw [setKey, lookupEvent_append, lookupEvent_eraseKey_ne w ws l h]
  cases hl : lookupEvent w l with
  | some v2 => simp
  | none => simp [lookupEvent, Ne.symm h]

theorem lookupEvent_foldl_setKey_true (l : List Nat) (w : Nat) (d : List (Nat × Bool)) :
    lookupEvent w (l.foldl (fun d2 x => setKey x true d2) d) =
      if w ∈ l then some true else lookupEvent w d := by
  induction l generalizing d with
  | nil => simp
  | cons x rest ih =>
    by_cases hx : w = x
    · subst hx
      by_cases hm : w ∈ rest
      · simp [List.foldl_cons, ih, hm]
      · simp [List.foldl_cons, ih, hm, lookupEvent_setKey_self]
    · simp [List.foldl_cons, ih, lookupEvent_setKey_ne w x _ _ hx, hx]

theorem lookupEvent_none_eraseKey (w x : Nat) (l : List (Nat × Bool))
    (h : lookupEvent w l = none) : lookupEvent w (eraseKey x l) = none := by
  by_cases hx : w = x
  · subst hx; exact lookupEvent_eraseKey_self w l
  · rw [lookupEvent_eraseKey_ne w x l hx]; exact h

theorem lookupEvent_none_foldl_eraseKey (rem : List Nat) (w : Nat)
    (d : List (Nat × Bool)) (h : lookupEvent w d = none) :
    lookupEvent w (rem.foldl (fun d2 x => eraseKey x d2) d) = none := by
  induction rem generalizing d with
  | nil => simpa using h
  | cons y rest ih => exact ih _ (lookupEvent_none_eraseKey w y _ h)

theorem lookupEvent_foldl_eraseKey_of_mem (rem : List Nat) (w : Nat)
    (d : List (Nat × Bool)) (h : w ∈ rem) :
    lookupEvent w (rem.foldl (fun d2 x => eraseKey x d2) d) = none := by
  induction rem generalizing d with
  | nil => cases h
  | cons x rest ih =>
    rcases List.mem_cons.mp h with h1 | h2
    · subst h1
      exact lookupEvent_none_foldl_eraseKey rest w _ (lookupEvent_eraseKey_self w d)
    · exact ih _ h2

/-! Helper lemmas about the channel operations. -/

theorem remove_foldl_history (rem : List Nat) (st : WSManager β) :
    (rem.foldl (fun s w => (WSManager._remove w s).1) st).history = st.history := by
  induction rem generalizing st with
  | nil => rfl
  | cons x rest ih => simpa [WSManager._remove] using ih _

theorem remove_foldl_is_closed (rem : List Nat) (st : WSManager β) :
    (rem.foldl (fun s w => (WSManager._remove w s).1) st).is_closed = st.is_closed := by
  induction rem generalizing st with
  | nil => rfl
  | cons x rest ih => simpa [WSManager._remove] using ih _

theorem remove_foldl_websockets (rem : List Nat) (st : WSManager β) :
    (rem.foldl (fun s w => (WSManager._remove w s).1) st).websockets =
      rem.foldl (fun l w => l.erase w) st.websockets := by
  induction rem generalizing st with
  | nil => rfl
  | cons x rest ih => simpa [WSManager._remove] using ih _

theorem remove_foldl_disconnect_events (rem : List Nat) (st : WSManager β) :
    (rem.foldl (fun s w => (WSManager._remove w s).1) st).disconnect_events =
      rem.foldl (fun d w => eraseKey w d) st.disconnect_events := by
  induction rem generalizing st with
  | nil => rfl
  | cons x rest ih => simpa [WSManager._remove] using ih _

theorem write_history (failed : Nat → Bool) (b : β) (st : WSManager β) :
    (st.write failed b).1.history = st.history ++ [b] := by
  unfold WSManager.write
  by_cases h : st.websockets.length = 0
  · simp [h]
  · simp [h, remove_foldl_history]

theorem write_is_closed (failed : Nat → Bool) (b : β) (st : WSManager β) :
    (st.write failed b).1.is_closed = st.is_closed := by
  unfold WSManager.write
  by_cases h : st.websockets.length = 0
  · simp [h]
  · simp [h, remove_foldl_is_closed]

theorem write_websockets (failed : Nat → Bool) (b : β) (st : WSManager β) :
    (st.write failed b).1.websockets =
      (st.websockets.filter (fun w => failed w)).foldl (fun l w => l.erase w) st.websockets := by
  unfold WSManager.write
  by_cases h : st.websockets.length = 0
  · have h2 : st.websockets = [] := List.length_eq_zero.mp h
    simp [h, h2]
  · simp [h, remove_foldl_websockets]

theorem write_disconnect_events (failed : Nat → Bool) (b : β) (st : WSManager β) :
    (st.write failed b).1.disconnect_events =
      (st.websockets.filter (fun w => failed w)).foldl (fun d w => eraseKey w d)
        st.disconnect_events := by
  unfold WSManager.write
  by_cases h : st.websockets.length = 0
  · have h2 : st.websockets = [] := List.length_eq_zero.mp h
    simp [h, h2]
  · simp [h, remove_foldl_disconnect_events]

theorem write_events (failed : Nat → Bool) (b : β) (st : WSManager β)
    (h : st.websockets.length ≠ 0) :
    (st.write failed b).2 =
      st.websockets.filterMap (fun w => if failed w then none else some (WSEvent.sent w b)) ++
      (st.websockets.filter (fun w => failed w)).map (fun w => WSEvent.signalled w) := by
  unfold WSManager.write
  simp [h]

theorem mem_foldl_erase_sub (rem : List Nat) (l : List Nat) (x : Nat)
    (h : x ∈ rem.foldl (fun l2 w => l2.erase w) l) : x ∈ l := by
  induction rem generalizing l with
  | nil => simpa using h
  | cons y rest ih =>
    simp only [List.foldl_cons] at h
    exact List.mem_of_mem_erase (ih _ h)

theorem not_mem_foldl_erase_of_not_mem (rem : List Nat) (l : List Nat) (x : Nat)
    (h : x ∉ l) : x ∉ rem.foldl (fun l2 w => l2.erase w) l :=
  fun hc => h (mem_foldl_erase_sub rem l x hc)

theorem nodup_foldl_erase (rem : List Nat) (l : List Nat) (h : l.Nodup) :
    (rem.foldl (fun l2 w => l2.erase w) l).Nodup := by
  induction rem generalizing l with
  | nil => simpa using h
  | cons y rest ih =>
    simp only [List.foldl_cons]
    exact ih _ (List.Nodup.erase y h)

theorem not_mem_foldl_erase_of_mem (rem : List Nat) (l : List Nat) (x : Nat)
    (hnd : l.Nodup) (hx : x ∈ rem) : x ∉ rem.foldl (fun l2 w => l2.erase w) l := by
  induction rem generalizing l with
  | nil => cases hx
  | cons y rest ih =>
    simp only [List.foldl_cons]
    by_cases hxy : x = y
    · subst hxy
      have hnotin : x ∉ l.erase x := fun hc => ((List.Nodup.mem_erase_iff hnd).mp hc).1 rfl
      exact not_mem_foldl_erase_of_not_mem rest _ x hnotin
    · have hxr : x ∈ rest := by
        rcases List.mem_cons.mp hx with h1 | h2
        · exact absurd h1 hxy
        · exact h2
      exact ih _ (List.Nodup.erase y hnd) hxr

theorem count_foldl_erase_of_not_mem (rem : List Nat) (l : List Nat) (x : Nat)
    (h : x ∉ rem) : (rem.foldl (fun l2 w => l2.erase w) l).count x = l.count x := by
  induction rem generalizing l with
  | nil => rfl
  | cons y rest ih =>
    have hxy : x ≠ y := fun hc => h (hc ▸ List.mem_cons_self y rest)
    have hr : x ∉ rest := fun hc => h (List.mem_cons_of_mem y hc)
    simp only [List.foldl_cons]
    rw [ih _ hr, List.count_erase_of_ne hxy]

/-! Helper lemmas about the delivery trace. -/

theorem sentTo_append (ws : Nat) (e1 e2 : List (WSEvent β)) :
    sentTo ws (e1 ++ e2) = sentTo ws e1 ++ sentTo ws e2 := by
  simp [sentTo, List.filterMap_append]

theorem sentTo_map_signalled (ws : Nat) (l : List Nat) :
    sentTo ws ((l.map (fun w => WSEvent.signalled w)) : List (WSEvent β)) = [] := by
  induction l with
  | nil => rfl
  | cons x rest ih => simp [sentTo] at ih ⊢

theorem sentTo_map_sent_self (ws : Nat) (h : List β) :
    sentTo ws (h.map (fun b => WSEvent.sent ws b)) = h := by
  induction h with
  | nil => rfl
  | cons b rest ih => simpa [sentTo] using ih

theorem sentTo_sends (ws : Nat) (b : β) (failed : Nat → Bool) (l : List Nat)
    (hf : failed ws = false) :
    sentTo ws (l.filterMap (fun w => if failed w then none else some (WSEvent.sent w b))) =
      List.replicate (l.count ws) b := by
  induction l with
  | nil => rfl
  | cons x rest ih =>
    by_cases hx : x = ws
    · subst hx
      simpa [List.filterMap_cons, hf, sentTo, List.count_cons, List.replicate_succ] using ih
    · by_cases hfx : failed x = true
      · simpa [List.filterMap_cons, hfx, List.count_cons, hx] using ih
      · have hfx2 : failed x = false := by
          cases hv : failed x
          · rfl
          · exact absurd hv hfx
        simpa [List.filterMap_cons, hfx2, sentTo, List.count_cons, hx] using ih

theorem write_sentTo_of_count_one (failed : Nat → Bool) (b : β) (st : WSManager β)
    (ws : Nat) (hc : st.websockets.count ws = 1) (hf : failed ws = false) :
    sentTo ws (st.write failed b).2 = [b] ∧
      (st.write failed b).1.websockets.count ws = 1 := by
  have hmem : ws ∈ st.websockets := by
    have : 0 < st.websockets.count ws := by omega
    exact List.count_pos_iff.mp this
  have hlen : st.websockets.length ≠ 0 := by
    intro h0
    rw [List.length_eq_zero] at h0
    rw [h0] at hmem
    cases hmem
  constructor
  · rw [write_events failed b st hlen, sentTo_append, sentTo_sends ws b failed _ hf, hc,
      sentTo_map_signalled]
    simp
  · have hnp : ws ∉ st.websockets.filter (fun w => failed w) := by
      intro hcmem
      have h2 := (List.mem_filter.mp hcmem).2
      rw [hf] at h2
      cases h2
    rw [write_websockets, count_foldl_erase_of_not_mem _ _ _ hnp]
    exact hc

theorem writeAll_sentTo (failed : Nat → Bool) (bs : List β) (st : WSManager β)
    (ws : Nat) (hc : st.websockets.count ws = 1) (hf : failed ws = false) :
    sentTo ws (st.writeAll failed bs).2 = bs ∧
      (st.writeAll failed bs).1.websockets.count ws = 1 := by
  induction bs generalizing st with
  | nil => exact ⟨rfl, hc⟩
  | cons b rest ih =>
    have h1 := write_sentTo_of_count_one failed b st ws hc hf
    have h2 := ih (st.write failed b).1 h1.2
    constructor
    · simp only [WSManager.writeAll, sentTo_append, h1.1, h2.1]
      rfl
    · simpa only [WSManager.writeAll] using h2.2

theorem add_count_one (failed : Nat → Bool) (ws : Nat) (st : WSManager β)
    (hmem : ws ∉ st.websockets) :
    (st.add failed ws).1.websockets.count ws = 1 := by
  simp only [WSManager.add, hmem, if_false]
  rw [List.count_append, List.count_eq_zero_of_not_mem hmem]
  simp

/-- Claim C3. For every broadcast channel state holding K previously
written messages, a subscriber that attaches (a fresh websocket whose own
deliveries succeed) receives exactly those K messages in write order
during `add` — which registers it and replays the history inside the same
`self._lock` critical section used by `write` — followed by exactly the
payload of every subsequent `write`, in order, with no message lost or
duplicated. -/
theorem claim_c3_attach_replays_history_then_live (β : Type) (st : WSManager β)
    (ws : Nat) (failed : Nat → Bool) (bs : List β)
    (hf : failed ws = false) (hmem : ws ∉ st.websockets) :
    sentTo ws ((st.add failed ws).2 ++ ((st.add failed ws).1.writeAll failed bs).2) =
      st.history ++ bs := by
  rw [sentTo_append]
  have h1 : sentTo ws (st.add failed ws).2 = st.history := by
    simp only [WSManager.add, hf, if_false]
    exact sentTo_map_sent_self ws st.history
  have h2 := writeAll_sentTo failed bs (st.add failed ws).1 ws
    (add_count_one failed ws st hmem) hf
  rw [h1, h2.1]

/-- Witness for C3 at a concrete channel: history `[10, 20]`, one existing
subscriber `5`, new subscriber `7`, two subsequent writes. -/
theorem claim_c3_witness :
    ((fun _ => false) : Nat → Bool) 7 = false ∧ 7 ∉ [5] ∧
      sentTo 7
        ((WSManager.add (fun _ => false) 7
            { history := [10, 20], websockets := [5],
              disconnect_events := [(5, false)], is_closed := false }).2 ++
          ((WSManager.add (fun _ => false) 7
            { history := [10, 20], websockets := [5],
              disconnect_events := [(5, false)], is_closed := false }).1.writeAll
            (fun _ => false) [30, 40]).2) = [10, 20] ++ [30, 40] :=
  ⟨rfl, by decide,
    claim_c3_attach_replays_history_then_live Nat
      { history := [10, 20], websockets := [5],
        disconnect_events := [(5, false)], is_closed := false }
      7 (fun _ => false) [30, 40] rfl (by decide)⟩

/-- Claim C4. For every `write` on a channel (with a duplicate-free
subscriber set), the call always completes and appends the chunk to
history; every subscriber whose delivery succeeds receives the chunk even
when other deliveries fail; and every subscriber whose delivery fails is,
after the fan-out, removed from the subscriber set, has its disconnect
signal set, and has its disconnect-event entry deleted. -/
theorem claim_c4_write_failure_policy (β : Type) (st : WSManager β) (b : β)
    (failed : Nat → Bool) (w : Nat) (hnd : st.websockets.Nodup)
    (hw : w ∈ st.websockets) :
    (st.write failed b).1.history = st.history ++ [b] ∧
    (failed w = false → WSEvent.sent w b ∈ (st.write failed b).2) ∧
    (failed w = true →
      w ∉ (st.write failed b).1.websockets ∧
      WSEvent.signalled w ∈ (st.write failed b).2 ∧
      lookupEvent w (st.write failed b).1.disconnect_events = none) := by
  have hlen : st.websockets.length ≠ 0 := by
    intro h0
    rw [List.length_eq_zero] at h0
    rw [h0] at hw
    cases hw
  refine ⟨write_history failed b st, ?_, ?_⟩
  · intro hf
    rw [write_events failed b st hlen]
    apply List.mem_append_left
    exact List.mem_filterMap.mpr ⟨w, hw, by simp [hf]⟩
  · intro hf
    have hwf : w ∈ st.websockets.filter (fun x => failed x) :=
      List.mem_filter.mpr ⟨hw, hf⟩
    refine ⟨?_, ?_, ?_⟩
    · rw [write_websockets]
      exact not_mem_foldl_erase_of_mem _ _ w hnd hwf
    · rw [write_events failed b st hlen]
      apply List.mem_append_right
      exact List.mem_map.mpr ⟨w, hwf, rfl⟩
    · rw [write_disconnect_events]
      exact lookupEvent_foldl_eraseKey_of_mem _ w _ hwf

/-- Witness for C4 at a concrete channel with subscribers `3` and `4`,
where delivery to `4` fails: `3` still receives the chunk, `4` is removed
and signalled. -/
theorem claim_c4_witness :
    ([3, 4] : List Nat).Nodup ∧ (4 : Nat) ∈ [3, 4] ∧ (3 : Nat) ∈ [3, 4] ∧
    ((fun w => decide (w = 4)) : Nat → Bool) 3 = false ∧
    ((fun w => decide (w = 4)) : Nat → Bool) 4 = true ∧
    (WSEvent.sent 3 9 ∈
      (WSManager.write (fun w => decide (w = 4)) 9
        { history := [], websockets := [3, 4],
          disconnect_events := [(3, false), (4, false)], is_closed := false }).2) ∧
    (4 ∉
      (WSManager.write (fun w => decide (w = 4)) 9
        { history := [], websockets := [3, 4],
          disconnect_events := [(3, false), (4, false)], is_closed := false }).1.websockets ∧
      WSEvent.signalled 4 ∈
        (WSManager.write (fun w => decide (w = 4)) 9
          { history := [], websockets := [3, 4],
            disconnect_events := [(3, false), (4, false)], is_closed := false }).2 ∧
      lookupEvent 4
        (WSManager.write (fun w => decide (w = 4)) 9
          { history := [], websockets := [3, 4],
            disconnect_events := [(3, false), (4, false)], is_closed := false }).1.disconnect_events
        = none) :=
  ⟨by decide, by decide, by decide, rfl, rfl,
    (claim_c4_write_failure_policy Nat
      { history := [], websockets := [3, 4],
        disconnect_events := [(3, false), (4, false)], is_closed := false }
      9 (fun w => decide (w = 4)) 3 (by decide) (by decide)).2.1 rfl,
    (claim_c4_write_failure_policy Nat
      { history := [], websockets := [3, 4],
        disconnect_events := [(3, false), (4, false)], is_closed := false }
      9 (fun w => decide (w = 4)) 4 (by decide) (by decide)).2.2 rfl⟩

/-- Claim C10. `wait_until_disconnect` raises `KeyError` exactly when the
websocket has no entry in `_disconnect_events` — a websocket that was
never attached, or one that `_remove` deleted after a failed delivery
during a `write`. A freshly attached websocket has an (unset) entry, so it
can be waited on (it suspends); `close` sets the events but leaves the
entries in place, so a subscriber detached by `close` can still be waited
on (the wait returns at once). -/
theorem claim_c10_wait_until_disconnect_keyerror (β : Type) (st : WSManager β)
    (ws : Nat) (b : β) (failed : Nat → Bool) :
    (lookupEvent ws st.disconnect_events = none →
      st.wait_until_disconnect ws = WaitOutcome.keyError) ∧
    (ws ∈ st.websockets → st.websockets.Nodup → failed ws = true →
      (st.write failed b).1.wait_until_disconnect ws = WaitOutcome.keyError) ∧
    ((st.add failed ws).1.wait_until_disconnect ws = WaitOutcome.blocks) ∧
    (ws ∈ st.websockets →
      (st.close).1.wait_until_disconnect ws = WaitOutcome.returnsNow) := by
  refine ⟨?_, ?_, ?_, ?_⟩
  · intro h
    simp [WSManager.wait_until_disconnect, h]
  · intro hw _hnd hf
    have hwf : ws ∈ st.websockets.filter (fun x => failed x) :=
      List.mem_filter.mpr ⟨hw, hf⟩
    have hnone : lookupEvent ws (st.write failed b).1.disconnect_events = none := by
      rw [write_disconnect_events]
      exact lookupEvent_foldl_eraseKey_of_mem _ ws _ hwf
    simp [WSManager.wait_until_disconnect, hnone]
  · simp [WSManager.add, WSManager.wait_until_disconnect, lookupEvent_setKey_self]
  · intro hw
    have hsome : lookupEvent ws (st.close).1.disconnect_events = some true := by
      show lookupEvent ws
        (st.websockets.foldl (fun d w => setKey w true d) st.disconnect_events) = some true
      rw [lookupEvent_foldl_setKey_true]
      simp [hw]
    simp [WSManager.wait_until_disconnect, hsome]

/-- Witness for C10: a never-attached websocket gets `KeyError`; a
subscriber removed by a failed delivery gets `KeyError`; a fresh
subscriber blocks; a subscriber detached by `close` returns at once. -/
theorem claim_c10_witness :
    lookupEvent 9 [(5, false)] = none ∧
    WSManager.wait_until_disconnect 9
      { history := ([] : List Nat), websockets := [5],
        disconnect_events := [(5, false)], is_closed := false } = WaitOutcome.keyError ∧
    (WSManager.write (fun w => decide (w = 4)) 0
      { history := ([] : List Nat), websockets := [3, 4],
        disconnect_events := [(3, false), (4, false)],
        is_closed := false }).1.wait_until_disconnect 4 = WaitOutcome.keyError ∧
    (WSManager.add (fun _ => false) 9
      { history := ([] : List Nat), websockets := [5],
        disconnect_events := [(5, false)],
        is_closed := false }).1.wait_until_disconnect 9 = WaitOutcome.blocks ∧
    (WSManager.close
      { history := ([] : List Nat), websockets := [5],
        disconnect_events := [(5, false)],
        is_closed := false }).1.wait_until_disconnect 5 = WaitOutcome.returnsNow :=
  ⟨by decide,
    (claim_c10_wait_until_disconnect_keyerror Nat
      { history := [], websockets := [5], disconnect_events := [(5, false)],
        is_closed := false } 9 0 (fun _ => false)).1 (by decide),
    (claim_c10_wait_until_disconnect_keyerror Nat
      { history := [], websockets := [3, 4],
        disconnect_events := [(3, false), (4, false)], is_closed := false }
      4 0 (fun w => decide (w = 4))).2.1 (by decide) (by decide) rfl,
    (claim_c10_wait_until_disconnect_keyerror Nat
      { history := [], websockets := [5], disconnect_events := [(5, false)],
        is_closed := false } 9 0 (fun _ => false)).2.2.1,
    (claim_c10_wait_until_disconnect_keyerror Nat
      { history := [], websockets := [5], disconnect_events := [(5, false)],
        is_closed := false } 5 0 (fun _ => false)).2.2.2 (by decide)⟩

/-- The concrete failing input for claims C5 and C6: a channel that held
history `[1, 2]` and one subscriber `7`, then was closed. -/
def closedChan : WSManager Nat :=
  (WSManager.close
    { history := [1, 2], websockets := [7],
      disconnect_events := [(7, false)], is_closed := false }).1

/-- Claim C5 fails on the code: `add` never reads `_is_closed` (the flag
is written but never consulted inside the class), so attaching websocket
`9` to the closed channel succeeds — it is registered, the full history is
replayed to it, and it is left waiting on a fresh unset disconnect event,
i.e. it hangs until some further `close` call, instead of being rejected. -/
theorem claim_c5_closed_channel_accepts_attach :
    closedChan.is_closed = true ∧
    (closedChan.add (fun _ => false) 9).1.websockets = [9] ∧
    (closedChan.add (fun _ => false) 9).2 = [WSEvent.sent 9 1, WSEvent.sent 9 2] ∧
    (closedChan.add (fun _ => false) 9).1.is_closed = true ∧
    (closedChan.add (fun _ => false) 9).1.wait_until_disconnect 9 = WaitOutcome.blocks := by
  decide

/-- Claim C6 fails on the code: `write` never reads `_is_closed` either,
so a write on the closed channel is neither rejected nor dropped — it is
appended to the history and delivered to the subscriber `9` that attached
after close (possible by the C5 slip). -/
theorem claim_c6_write_after_close_is_delivered :
    (closedChan.add (fun _ => false) 9).1.is_closed = true ∧
    ((closedChan.add (fun _ => false) 9).1.write (fun _ => false) 5).2 = [WSEvent.sent 9 5] ∧
    ((closedChan.add (fun _ => false) 9).1.write (fun _ => false) 5).1.history = [1, 2, 5] := by
  decide

/-- Instrumentation events for observing the order in which
`TaskLifecycle.wrap` runs its pieces. -/
inductive HookEv where
  | hookStart (i : Nat)
  | unitRun
  | hookDone (i : Nat) (r : Nat)
deriving DecidableEq

theorem foldl_start_trace (is : List Nat) (t : List HookEv) :
    (is.map (fun i => fun tr => tr ++ [HookEv.hookStart i])).foldl
      (fun s f => f s) t = t ++ is.map HookEv.hookStart := by
  induction is generalizing t with
  | nil => simp
  | cons x rest ih =>
    simp only [List.map_cons, List.foldl_cons]
    rw [ih]
    simp

theorem foldl_done_trace (js : List Nat) (r : Nat) (t : List HookEv) :
    (js.map (fun j => fun r2 tr => tr ++ [HookEv.hookDone j r2])).foldl
      (fun s f => f r s) t = t ++ js.map (fun j => HookEv.hookDone j r) := by
  induction js generalizing t with
  | nil => simp
  | cons x rest ih =>
    simp only [List.map_cons, List.foldl_cons]
    rw [ih]
    simp

/-- Claim C8. A `TaskLifecycle`-wrapped unit of work first runs every
registered start callback in registration order, then the underlying unit
of work to completion (whatever result it produces — including the error
result of its failure path), then every completion callback in
registration order with the produced result, and it returns that result
unaltered: shown by an instrumented trace for arbitrary callback lists,
together with result preservation for every lifecycle, unit of work and
state. -/
theorem claim_c8_wrap_runs_hooks_in_order (is js : List Nat) (r0 : Nat)
    (t0 : List HookEv) :
    (TaskLifecycle.wrap
      { start_fns := is.map (fun i => fun tr => tr ++ [HookEv.hookStart i]),
        done_fns := js.map (fun j => fun r2 tr => tr ++ [HookEv.hookDone j r2]) }
      (fun tr => (tr ++ [HookEv.unitRun], r0)) t0
    = (t0 ++ is.map HookEv.hookStart ++ [HookEv.unitRun] ++
        js.map (fun j => HookEv.hookDone j r0), r0)) ∧
    (∀ (σ ρ : Type) (tlc : TaskLifecycle σ ρ) (fn : σ → σ × ρ) (s : σ),
      (tlc.wrap fn s).2 = (fn (tlc.start_fns.foldl (fun t f => f t) s)).2) := by
  constructor
  · unfold TaskLifecycle.wrap
    simp only [foldl_start_trace, foldl_done_trace]
  · intro σ ρ tlc fn s
    rfl

/-! Helper lemmas about the served coordinator's state transformers. -/

theorem write_noFail_state (b : β) (m : WSManager β) :
    (m.write noFail b).1 = { m with history := m.history ++ [b] } := by
  unfold WSManager.write
  by_cases h : m.websockets.length = 0
  · simp [h]
  · simp only [h, if_false]
    have hf : m.websockets.filter (fun w => noFail w) = [] := by
      simp [noFail]
    simp [hf]

theorem lookupM_writeTo (id : String) (b : Nat) (ms : List (String × WSManager Nat)) :
    lookupM id (writeTo id b ms) =
      (lookupM id ms).map (fun m => (WSManager.write noFail b m).1) := by
  induction ms with
  | nil => rfl
  | cons p rest ih =>
    obtain ⟨k, m⟩ := p
    by_cases h : k = id
    · subst h
      simp [writeTo, lookupM]
    · simp only [writeTo, h, if_false, lookupM]
      rw [ih]

theorem lookupM_writeTo_fold (bs : List Nat) (id : String)
    (ms : List (String × WSManager Nat)) (m : WSManager Nat)
    (h : lookupM id ms = some m) :
    lookupM id (bs.foldl (fun ms2 b => writeTo id b ms2) ms) =
      some { m with history := m.history ++ bs } := by
  induction bs generalizing ms m with
  | nil => simpa using h
  | cons b rest ih =>
    simp only [List.foldl_cons]
    have h1 : lookupM id (writeTo id b ms) =
        some { m with history := m.history ++ [b] } := by
      rw [lookupM_writeTo, h]
      simp [write_noFail_state]
    have h2 := ih _ _ h1
    simpa using h2

theorem logFn_fold_updates_history (id : String) (ls : List String) (st : CoordState) :
    (ls.foldl (fun s m => logFn id m s) st).updates_manager.history =
      st.updates_manager.history ++
        ls.map (fun s => { task_id := id, payload := TaskUpdatePayload.log s : TaskUpdate }) := by
  induction ls generalizing st with
  | nil => simp
  | cons x rest ih =>
    simp only [List.foldl_cons, List.map_cons]
    rw [ih]
    simp [logFn, write_noFail_state]

theorem logFn_fold_task_managers (id : String) (ls : List String) (st : CoordState) :
    (ls.foldl (fun s m => logFn id m s) st).task_managers = st.task_managers := by
  induction ls generalizing st with
  | nil => rfl
  | cons x rest ih => simpa [logFn] using ih _

theorem logFn_fold_task_results (id : String) (ls : List String) (st : CoordState) :
    (ls.foldl (fun s m => logFn id m s) st).task_results = st.task_results := by
  induction ls generalizing st with
  | nil => rfl
  | cons x rest ih => simpa [logFn] using ih _

theorem logFn_fold_clock (id : String) (ls : List String) (st : CoordState) :
    (ls.foldl (fun s m => logFn id m s) st).clock = st.clock := by
  induction ls generalizing st with
  | nil => rfl
  | cons x rest ih => simpa [logFn] using ih _

theorem logFn_fold_done_event (id : String) (ls : List String) (st : CoordState) :
    (ls.foldl (fun s m => logFn id m s) st).done_event = st.done_event := by
  induction ls generalizing st with
  | nil => rfl
  | cons x rest ih => simpa [logFn] using ih _

theorem logFn_fold_updates_is_closed (id : String) (ls : List String) (st : CoordState) :
    (ls.foldl (fun s m => logFn id m s) st).updates_manager.is_closed =
      st.updates_manager.is_closed := by
  induction ls generalizing st with
  | nil => rfl
  | cons x rest ih =>
    rw [List.foldl_cons, ih]
    simp [logFn, write_is_closed]

theorem logFn_task_results (id : String) (s : String) (st : CoordState) :
    (logFn id s st).task_results = st.task_results := rfl

theorem logFn_task_managers (id : String) (s : String) (st : CoordState) :
    (logFn id s st).task_managers = st.task_managers := rfl

theorem logFn_clock (id : String) (s : String) (st : CoordState) :
    (logFn id s st).clock = st.clock := rfl

theorem logFn_done_event (id : String) (s : String) (st : CoordState) :
    (logFn id s st).done_event = st.done_event := rfl

theorem logFn_updates_is_closed (id : String) (s : String) (st : CoordState) :
    (logFn id s st).updates_manager.is_closed = st.updates_manager.is_closed := by
  simp [logFn, write_is_closed]

theorem runTaskServer_task_results (cmd : Nat) (tb : TaskBehavior) (st : CoordState) :
    (runTaskServer cmd tb st).1.task_results = st.task_results := by
  cases ho : tb.outcome with
  | ok p => simp [runTaskServer, ho, logFn_fold_task_results]
  | error tr => simp [runTaskServer, ho, logFn_fold_task_results, logFn_task_results]

theorem runTaskServer_done_event (cmd : Nat) (tb : TaskBehavior) (st : CoordState) :
    (runTaskServer cmd tb st).1.done_event = st.done_event := by
  cases ho : tb.outcome with
  | ok p => simp [runTaskServer, ho, logFn_fold_done_event]
  | error tr => simp [runTaskServer, ho, logFn_fold_done_event, logFn_done_event]

theorem runTaskServer_updates_is_closed (cmd : Nat) (tb : TaskBehavior) (st : CoordState) :
    (runTaskServer cmd tb st).1.updates_manager.is_closed =
      st.updates_manager.is_closed := by
  cases ho : tb.outcome with
  | ok p => simp [runTaskServer, ho, logFn_fold_updates_is_closed]
  | error tr =>
    simp [runTaskServer, ho, logFn_fold_updates_is_closed, logFn_updates_is_closed]

theorem runTaskServer_task_managers (cmd : Nat) (tb : TaskBehavior) (st : CoordState) :
    (runTaskServer cmd tb st).1.task_managers =
      tb.writes.foldl (fun ms b => writeTo tb.zs.id b ms) st.task_managers := by
  cases ho : tb.outcome with
  | ok p => simp [runTaskServer, ho, logFn_fold_task_managers]
  | error tr => simp [runTaskServer, ho, logFn_fold_task_managers, logFn_task_managers]

theorem runTaskServer_task_id (cmd : Nat) (tb : TaskBehavior) (st : CoordState) :
    (runTaskServer cmd tb st).2.task_id = tb.zs.id := rfl

theorem runTaskServer_start (cmd : Nat) (tb : TaskBehavior) (st : CoordState) :
    (runTaskServer cmd tb st).2.start = st.clock := rfl

theorem runTaskServer_end (cmd : Nat) (tb : TaskBehavior) (st : CoordState) :
    (runTaskServer cmd tb st).2.end_ = st.clock + 1 := by
  cases ho : tb.outcome with
  | ok p => simp [runTaskServer, ho, logFn_fold_clock]
  | error tr => simp [runTaskServer, ho, logFn_fold_clock, logFn_clock]

theorem doneFn_task_results (n : Nat) (id : String) (r : TaskResult) (st : CoordState) :
    (doneFn n id r st).task_results = st.task_results ++ [r] := by
  unfold doneFn
  by_cases h : n ≤ st.task_results.length + 1
  · simp [h]
  · simp [h]

theorem doneFn_task_managers (n : Nat) (id : String) (r : TaskResult) (st : CoordState) :
    (doneFn n id r st).task_managers = closeManager id st.task_managers := by
  unfold doneFn
  by_cases h : n ≤ st.task_results.length + 1
  · simp [h]
  · simp [h]

theorem doneFn_done_event (n : Nat) (id : String) (r : TaskResult) (st : CoordState) :
    (doneFn n id r st).done_event =
      if n ≤ st.task_results.length + 1 then true else st.done_event := by
  unfold doneFn
  by_cases h : n ≤ st.task_results.length + 1
  · simp [h]
  · simp [h]

theorem doneFn_updates_is_closed (n : Nat) (id : String) (r : TaskResult) (st : CoordState) :
    (doneFn n id r st).updates_manager.is_closed = st.updates_manager.is_closed := by
  unfold doneFn
  by_cases h : n ≤ st.task_results.length + 1
  · simp [h, write_is_closed]
  · simp [h, write_is_closed]

theorem stepTask_eq (cmd n : Nat) (tb : TaskBehavior) (st : CoordState) :
    stepTask cmd n tb st =
      doneFn n tb.zs.id (runTaskServer cmd tb (startFn tb.zs.id st)).2
        (runTaskServer cmd tb (startFn tb.zs.id st)).1 := rfl

theorem stepTask_task_results (cmd n : Nat) (tb : TaskBehavior) (st : CoordState) :
    (stepTask cmd n tb st).task_results =
      st.task_results ++ [(runTaskServer cmd tb (startFn tb.zs.id st)).2] := by
  rw [stepTask_eq, doneFn_task_results, runTaskServer_task_results]
  rfl

theorem stepTask_results_ids (cmd n : Nat) (tb : TaskBehavior) (st : CoordState) :
    ((stepTask cmd n tb st).task_results).map TaskResult.task_id =
      st.task_results.map TaskResult.task_id ++ [tb.zs.id] := by
  rw [stepTask_task_results]
  simp [runTaskServer_task_id]

theorem stepTask_done_event (cmd n : Nat) (tb : TaskBehavior) (st : CoordState) :
    (stepTask cmd n tb st).done_event =
      if n ≤ st.task_results.length + 1 then true else st.done_event := by
  rw [stepTask_eq, doneFn_done_event, runTaskServer_task_results,
    runTaskServer_done_event]
  rfl

theorem stepTask_updates_is_closed (cmd n : Nat) (tb : TaskBehavior) (st : CoordState) :
    (stepTask cmd n tb st).updates_manager.is_closed =
      st.updates_manager.is_closed := by
  rw [stepTask_eq, doneFn_updates_is_closed, runTaskServer_updates_is_closed]
  simp [startFn, write_is_closed]

theorem stepTask_task_managers (cmd n : Nat) (tb : TaskBehavior) (st : CoordState) :
    (stepTask cmd n tb st).task_managers =
      closeManager tb.zs.id
        (tb.writes.foldl (fun ms b => writeTo tb.zs.id b ms) st.task_managers) := by
  rw [stepTask_eq, doneFn_task_managers, runTaskServer_task_managers]
  rfl

/-- Whether the channel of task `id` exists and is closed. -/
def managerClosed (id : String) (st : CoordState) : Bool :=
  match lookupM id st.task_managers with
  | some m => m.is_closed
  | none => false

/-- Whether task `id` has a channel in the registry. -/
def managerPresent (id : String) (st : CoordState) : Bool :=
  (lookupM id st.task_managers).isSome

theorem managerClosed_iff (id : String) (st : CoordState) :
    managerClosed id st = true ↔
      (lookupM id st.task_managers).map WSManager.is_closed = some true := by
  unfold managerClosed
  cases lookupM id st.task_managers with
  | none => simp
  | some m => simp

theorem lookupM_writeTo_isclosed (id id' : String) (b : Nat)
    (ms : List (String × WSManager Nat)) :
    (lookupM id (writeTo id' b ms)).map WSManager.is_closed =
      (lookupM id ms).map WSManager.is_closed := by
  induction ms with
  | nil => rfl
  | cons p rest ih =>
    obtain ⟨k, m⟩ := p
    by_cases h1 : k = id'
    · subst h1
      by_cases h2 : k = id
      · subst h2
        simp [writeTo, lookupM, write_is_closed]
      · simpa [writeTo, lookupM, h2] using ih
    · by_cases h2 : k = id
      · subst h2
        simp [writeTo, lookupM, h1]
      · simpa [writeTo, lookupM, h1, h2] using ih

theorem lookupM_writeTo_fold_isclosed (id id' : String) (bs : List Nat)
    (ms : List (String × WSManager Nat)) :
    (lookupM id (bs.foldl (fun ms2 b => writeTo id' b ms2) ms)).map WSManager.is_closed =
      (lookupM id ms).map WSManager.is_closed := by
  induction bs generalizing ms with
  | nil => rfl
  | cons b rest ih =>
    simp only [List.foldl_cons]
    rw [ih, lookupM_writeTo_isclosed]

theorem lookupM_closeManager_isclosed (id id' : String)
    (ms : List (String × WSManager Nat)) :
    (lookupM id (closeManager id' ms)).map WSManager.is_closed =
      if id = id' then (lookupM id ms).map (fun _ => true)
      else (lookupM id ms).map WSManager.is_closed := by
  induction ms with
  | nil => by_cases h : id = id' <;> simp [closeManager, lookupM, h]
  | cons p rest ih =>
    obtain ⟨k, m⟩ := p
    by_cases h1 : k = id'
    · subst h1
      by_cases h2 : k = id
      · subst h2
        simp [closeManager, lookupM, WSManager.close]
      · have h3 : ¬ id = k := fun hc => h2 hc.symm
        simp [closeManager, lookupM, h2, h3, ih]
    · by_cases h2 : k = id
      · subst h2
        have h3 : ¬ k = id' := h1
        simp [closeManager, lookupM, h1, h3]
      · simpa [closeManager, lookupM, h1, h2] using ih

theorem lookupM_isSome_writeTo_fold (id id' : String) (bs : List Nat)
    (ms : List (String × WSManager Nat)) :
    (lookupM id (bs.foldl (fun ms2 b => writeTo id' b ms2) ms)).isSome =
      (lookupM id ms).isSome := by
  have h := lookupM_writeTo_fold_isclosed id id' bs ms
  have h1 := congrArg Option.isSome h
  simpa using h1

theorem lookupM_isSome_closeManager (id id' : String)
    (ms : List (String × WSManager Nat)) :
    (lookupM id (closeManager id' ms)).isSome = (lookupM id ms).isSome := by
  have h := lookupM_closeManager_isclosed id id' ms
  have h1 := congrArg Option.isSome h
  by_cases hc : id = id'
  · simp [hc] at h1
    simpa [hc] using h1
  · simp [hc] at h1
    simpa [hc] using h1

theorem stepTask_managerClosed_mono (cmd n : Nat) (tb : TaskBehavior) (id : String)
    (st : CoordState) (h : managerClosed id st = true) :
    managerClosed id (stepTask cmd n tb st) = true := by
  rw [managerClosed_iff] at h ⊢
  rw [stepTask_task_managers, lookupM_closeManager_isclosed]
  by_cases hc : id = tb.zs.id
  · have hs : (lookupM id st.task_managers).isSome = true := by
      cases hl : lookupM id st.task_managers
      · rw [hl] at h
        cases h
      · simp
    have hs2 := lookupM_isSome_writeTo_fold id tb.zs.id tb.writes st.task_managers
    rw [hs] at hs2
    cases hl2 : lookupM id (tb.writes.foldl (fun ms2 b => writeTo tb.zs.id b ms2)
        st.task_managers)
    · rw [hl2] at hs2
      cases hs2
    · simp [hc]
  · rw [if_neg hc, lookupM_writeTo_fold_isclosed]
    exact h

theorem stepTask_managerClosed_self (cmd n : Nat) (tb : TaskBehavior)
    (st : CoordState) (hp : managerPresent tb.zs.id st = true) :
    managerClosed tb.zs.id (stepTask cmd n tb st) = true := by
  rw [managerClosed_iff, stepTask_task_managers, lookupM_closeManager_isclosed,
    if_pos rfl]
  unfold managerPresent at hp
  have hs2 := lookupM_isSome_writeTo_fold tb.zs.id tb.zs.id tb.writes st.task_managers
  rw [hp] at hs2
  cases hl2 : lookupM tb.zs.id (tb.writes.foldl (fun ms2 b => writeTo tb.zs.id b ms2)
      st.task_managers)
  · rw [hl2] at hs2
    cases hs2
  · simp

theorem stepTask_managerPresent (cmd n : Nat) (tb : TaskBehavior) (id : String)
    (st : CoordState) :
    managerPresent id (stepTask cmd n tb st) = managerPresent id st := by
  unfold managerPresent
  rw [stepTask_task_managers, lookupM_isSome_closeManager, lookupM_isSome_writeTo_fold]

theorem runServerSteps_results_ids (cmd n : Nat) (p : List TaskBehavior)
    (st : CoordState) :
    ((runServerSteps cmd n p st).task_results).map TaskResult.task_id =
      st.task_results.map TaskResult.task_id ++ p.map (fun tb => tb.zs.id) := by
  induction p generalizing st with
  | nil => simp [runServerSteps]
  | cons tb rest ih =>
    show ((runServerSteps cmd n rest (stepTask cmd n tb st)).task_results).map
        TaskResult.task_id = _
    rw [ih, stepTask_results_ids]
    simp

theorem runServerSteps_results_length (cmd n : Nat) (p : List TaskBehavior)
    (st : CoordState) :
    (runServerSteps cmd n p st).task_results.length =
      st.task_results.length + p.length := by
  have h := congrArg List.length (runServerSteps_results_ids cmd n p st)
  simpa using h

theorem runServerSteps_updates_is_closed (cmd n : Nat) (p : List TaskBehavior)
    (st : CoordState) :
    (runServerSteps cmd n p st).updates_manager.is_closed =
      st.updates_manager.is_closed := by
  induction p generalizing st with
  | nil => rfl
  | cons tb rest ih =>
    show (runServerSteps cmd n rest (stepTask cmd n tb st)).updates_manager.is_closed = _
    rw [ih, stepTask_updates_is_closed]

theorem runServerSteps_done_event_false (cmd n : Nat) (p : List TaskBehavior)
    (st : CoordState) (h1 : st.done_event = false)
    (h2 : st.task_results.length + p.length < n) :
    (runServerSteps cmd n p st).done_event = false := by
  induction p generalizing st with
  | nil => exact h1
  | cons tb rest ih =>
    show (runServerSteps cmd n rest (stepTask cmd n tb st)).done_event = false
    have hlt : st.task_results.length + 1 < n ∨ st.task_results.length + 1 = n ∨
        n ≤ st.task_results.length := by omega
    have hnle : ¬ n ≤ st.task_results.length + 1 := by
      simp only [List.length_cons] at h2
      omega
    apply ih
    · rw [stepTask_done_event, if_neg hnle]
      exact h1
    · rw [stepTask_task_results]
      simp only [List.length_append, List.length_cons] at h2 ⊢
      simp only [List.length_nil]
      omega

theorem runServerSteps_done_event_mono (cmd n : Nat) (p : List TaskBehavior)
    (st : CoordState) (h : st.done_event = true) :
    (runServerSteps cmd n p st).done_event = true := by
  induction p generalizing st with
  | nil => exact h
  | cons tb rest ih =>
    show (runServerSteps cmd n rest (stepTask cmd n tb st)).done_event = true
    apply ih
    rw [stepTask_done_event]
    by_cases hc : n ≤ st.task_results.length + 1
    · rw [if_pos hc]
    · rw [if_neg hc]
      exact h

theorem runServerSteps_done_event_true (cmd n : Nat) (p : List TaskBehavior)
    (st : CoordState) (h2 : n ≤ st.task_results.length + p.length) (hne : p ≠ []) :
    (runServerSteps cmd n p st).done_event = true := by
  induction p generalizing st with
  | nil => exact absurd rfl hne
  | cons tb rest ih =>
    show (runServerSteps cmd n rest (stepTask cmd n tb st)).done_event = true
    by_cases hr : rest = []
    · subst hr
      have hle : n ≤ st.task_results.length + 1 := by
        simp only [List.length_cons, List.length_nil] at h2
        omega
      show (stepTask cmd n tb st).done_event = true
      rw [stepTask_done_event, if_pos hle]
    · apply ih _ _ hr
      rw [stepTask_task_results]
      simp only [List.length_cons] at h2
      simp only [List.length_append, List.length_cons, List.length_nil]
      omega

theorem runServerSteps_managerClosed_mono (cmd n : Nat) (p : List TaskBehavior)
    (id : String) (st : CoordState) (h : managerClosed id st = true) :
    managerClosed id (runServerSteps cmd n p st) = true := by
  induction p generalizing st with
  | nil => exact h
  | cons tb rest ih =>
    show managerClosed id (runServerSteps cmd n rest (stepTask cmd n tb st)) = true
    exact ih _ (stepTask_managerClosed_mono cmd n tb id st h)

theorem runServerSteps_managerPresent (cmd n : Nat) (p : List TaskBehavior)
    (id : String) (st : CoordState) :
    managerPresent id (runServerSteps cmd n p st) = managerPresent id st := by
  induction p generalizing st with
  | nil => rfl
  | cons tb rest ih =>
    show managerPresent id (runServerSteps cmd n rest (stepTask cmd n tb st)) = _
    rw [ih, stepTask_managerPresent]

theorem runServerSteps_mem_closed (cmd n : Nat) (p : List TaskBehavior)
    (tb : TaskBehavior) (st : CoordState) (hmem : tb ∈ p)
    (hp : managerPresent tb.zs.id st = true) :
    managerClosed tb.zs.id (runServerSteps cmd n p st) = true := by
  induction p generalizing st with
  | nil => cases hmem
  | cons x rest ih =>
    show managerClosed tb.zs.id (runServerSteps cmd n rest (stepTask cmd n x st)) = true
    rcases List.mem_cons.mp hmem with h1 | h2
    · subst h1
      exact runServerSteps_managerClosed_mono cmd n rest tb.zs.id _
        (stepTask_managerClosed_self cmd n tb st hp)
    · apply ih _ h2
      rw [stepTask_managerPresent]
      exact hp

theorem initState_managerPresent (tasks : List TaskBehavior) (tb : TaskBehavior)
    (hmem : tb ∈ tasks) : managerPresent tb.zs.id (initState tasks) = true := by
  unfold managerPresent initState
  induction tasks with
  | nil => cases hmem
  | cons x rest ih =>
    rcases List.mem_cons.mp hmem with h1 | h2
    · subst h1
      simp [lookupM]
    · by_cases hk : x.zs.id = tb.zs.id
      · simp [lookupM, hk]
      · simpa [lookupM, hk] using ih h2

theorem initState_fields (tasks : List TaskBehavior) :
    (initState tasks).task_results = [] ∧ (initState tasks).done_event = false ∧
      (initState tasks).updates_manager.is_closed = false :=
  ⟨rfl, rfl, rfl⟩

theorem lookupM_map_close (id : String) (ms : List (String × WSManager Nat)) :
    lookupM id (ms.map (fun p => (p.1, (WSManager.close p.2).1))) =
      (lookupM id ms).map (fun m => (WSManager.close m).1) := by
  induction ms with
  | nil => rfl
  | cons p rest ih =>
    obtain ⟨k, m⟩ := p
    by_cases h : k = id
    · subst h
      simp [lookupM]
    · simpa [lookupM, h] using ih

theorem finalClose_task_results (st : CoordState) :
    (finalClose st).task_results = st.task_results := rfl

theorem finalClose_updates_is_closed (st : CoordState) :
    (finalClose st).updates_manager.is_closed = true := rfl

theorem finalClose_managerClosed (id : String) (st : CoordState)
    (hp : managerPresent id st = true) : managerClosed id (finalClose st) = true := by
  rw [managerClosed_iff]
  show (lookupM id (st.task_managers.map (fun p => (p.1, (WSManager.close p.2).1)))).map
      WSManager.is_closed = some true
  rw [lookupM_map_close]
  unfold managerPresent at hp
  cases hl : lookupM id st.task_managers
  · rw [hl] at hp
    cases hp
  · simp [WSManager.close]

theorem pool_results_ids (cmd : Nat) (schedule : List (ZeroShotTask × RajFun))
    (e : TaskEnv) :
    ((run_benchmark_worker_pool cmd schedule e).2).map TaskResult.task_id =
      schedule.map (fun t => t.1.id) := by
  induction schedule generalizing e with
  | nil => rfl
  | cons t rest ih =>
    obtain ⟨zs, raj⟩ := t
    simp only [run_benchmark_worker_pool, List.map_cons]
    rw [ih]
    rfl

theorem pool_results_length (cmd : Nat) (schedule : List (ZeroShotTask × RajFun))
    (e : TaskEnv) :
    (run_benchmark_worker_pool cmd schedule e).2.length = schedule.length := by
  have h := congrArg List.length (pool_results_ids cmd schedule e)
  simpa using h

/-- Counterexample to C1 as stated: for the empty batch (N = 0) the served
coordinator never returns at all. All zero submitted tasks have completed
— the whole (empty) schedule has run — yet `done_event` is still clear,
because only a completion callback ever sets it and none ever runs; so the
coordinator blocks forever on `done_event.wait()` instead of returning the
claimed 0 records. -/
theorem claim_c1_counterexample :
    ([] : List TaskBehavior).length = 0 ∧
    (initState ([] : List TaskBehavior)).done_event = false ∧
    (runServerSteps 0 0 [] (initState ([] : List TaskBehavior))).done_event = false := by
  decide

/-- Claim C1 as amended: the headless coordinator returns exactly one
`TaskResult` per submitted task for every batch, the empty one included,
each carrying the id of its task. For every nonempty batch and any
completion order (a permutation of the submitted tasks, covering every
concurrency limit), the served coordinator sets `done_event` once the
whole schedule has completed — so the wait it blocks on finishes — and
its returned `task_results` has exactly N entries whose task ids are a
permutation of the submitted ids (hence, when the submitted ids are
distinct, N distinct ids each equal to an originally-submitted one). For
the empty batch the served coordinator never sets `done_event` and
therefore never returns. -/
theorem claim_c1_amended_one_result_per_task (cmd : Nat) (e : TaskEnv)
    (htasks hsched : List (ZeroShotTask × RajFun))
    (tasks schedule : List TaskBehavior)
    (hperm1 : hsched.Perm htasks) (hperm2 : schedule.Perm tasks) :
    ((run_benchmark_worker_pool cmd hsched e).2.length = htasks.length) ∧
    (((run_benchmark_worker_pool cmd hsched e).2.map TaskResult.task_id).Perm
      (htasks.map (fun t => t.1.id))) ∧
    ((htasks.map (fun t => t.1.id)).Nodup →
      ((run_benchmark_worker_pool cmd hsched e).2.map TaskResult.task_id).Nodup) ∧
    (tasks ≠ [] →
      (runServerSteps cmd tasks.length schedule (initState tasks)).done_event = true ∧
      (run_benchmark_worker_pool_with_server cmd tasks schedule).task_results.length
        = tasks.length ∧
      (((run_benchmark_worker_pool_with_server cmd tasks schedule).task_results.map
        TaskResult.task_id).Perm (tasks.map (fun tb => tb.zs.id))) ∧
      ((tasks.map (fun tb => tb.zs.id)).Nodup →
        ((run_benchmark_worker_pool_with_server cmd tasks schedule).task_results.map
          TaskResult.task_id).Nodup)) ∧
    (tasks = [] →
      (runServerSteps cmd tasks.length schedule (initState tasks)).done_event
        = false) := by
  have hids : ((run_benchmark_worker_pool cmd hsched e).2.map TaskResult.task_id).Perm
      (htasks.map (fun t => t.1.id)) := by
    rw [pool_results_ids]
    exact hperm1.map (fun t => t.1.id)
  have hsrv : ((run_benchmark_worker_pool_with_server cmd tasks
      schedule).task_results.map TaskResult.task_id).Perm
      (tasks.map (fun tb => tb.zs.id)) := by
    show (((finalClose (runServerSteps cmd tasks.length schedule
      (initState tasks))).task_results).map TaskResult.task_id).Perm _
    rw [finalClose_task_results, runServerSteps_results_ids]
    show ((initState tasks).task_results.map TaskResult.task_id ++
      schedule.map (fun tb => tb.zs.id)).Perm _
    simp only [initState, List.map_nil, List.nil_append]
    exact hperm2.map (fun tb => tb.zs.id)
  refine ⟨?_, hids, ?_, ?_, ?_⟩
  · rw [pool_results_length]
    exact hperm1.length_eq
  · intro hnd
    exact hids.nodup_iff.mpr hnd
  · intro hne
    refine ⟨?_, ?_, hsrv, ?_⟩
    · apply runServerSteps_done_event_true
      · simp only [initState, List.length_nil, Nat.zero_add]
        rw [hperm2.length_eq]
      · intro hc
        subst hc
        have h1 := hperm2.length_eq
        simp only [List.length_nil] at h1
        exact hne (List.length_eq_zero.mp h1.symm)
    · show (finalClose (runServerSteps cmd tasks.length schedule
        (initState tasks))).task_results.length = tasks.length
      rw [finalClose_task_results, runServerSteps_results_length]
      simp only [initState, List.length_nil, Nat.zero_add]
      exact hperm2.length_eq
    · intro hnd
      exact hsrv.nodup_iff.mpr hnd
  · intro hnil
    subst hnil
    have hs : schedule = [] := hperm2.eq_nil
    subst hs
    rfl

/-- Example fixtures for concrete witnesses and counterexamples. -/
def zsA : ZeroShotTask := { id := "A", prompt := "p" }

def zsB : ZeroShotTask := { id := "B", prompt := "q" }

/-- A `run_and_judge` behaviour that succeeds immediately. -/
def rajOk : RajFun := fun env => (env, Except.ok ([], "correct"))

/-- Server-mode behaviour of a task that succeeds without output. -/
def tbOkA : TaskBehavior := { zs := zsA, writes := [], logs := [], outcome := Except.ok ([], "correct") }

/-- Server-mode behaviour of a second task that succeeds without output. -/
def tbOkB : TaskBehavior := { zs := zsB, writes := [], logs := [], outcome := Except.ok ([], "correct") }

/-- Witness for the amended C1: two tasks, headless completion order as
submitted, served completion order reversed. -/
theorem claim_c1_witness :
    (run_benchmark_worker_pool 0 [(zsA, rajOk), (zsB, rajOk)]
      { logged := [], clock := 0 }).2.length = 2 ∧
    (((run_benchmark_worker_pool 0 [(zsA, rajOk), (zsB, rajOk)]
      { logged := [], clock := 0 }).2.map TaskResult.task_id).Perm ["A", "B"]) ∧
    (["A", "B"] : List String).Nodup ∧
    ((run_benchmark_worker_pool 0 [(zsA, rajOk), (zsB, rajOk)]
      { logged := [], clock := 0 }).2.map TaskResult.task_id).Nodup ∧
    ([tbOkA, tbOkB] : List TaskBehavior) ≠ [] ∧
    (runServerSteps 0 2 [tbOkB, tbOkA] (initState [tbOkA, tbOkB])).done_event = true ∧
    (run_benchmark_worker_pool_with_server 0 [tbOkA, tbOkB]
      [tbOkB, tbOkA]).task_results.length = 2 ∧
    (((run_benchmark_worker_pool_with_server 0 [tbOkA, tbOkB]
      [tbOkB, tbOkA]).task_results.map TaskResult.task_id).Perm ["A", "B"]) := by
  have H := claim_c1_amended_one_result_per_task 0 { logged := [], clock := 0 }
    [(zsA, rajOk), (zsB, rajOk)] [(zsA, rajOk), (zsB, rajOk)]
    [tbOkA, tbOkB] [tbOkB, tbOkA]
    (List.Perm.refl _) (List.Perm.swap tbOkA tbOkB [])
  have hne : ([tbOkA, tbOkB] : List TaskBehavior) ≠ [] := by
    intro hc
    cases hc
  have Hne := H.2.2.2.1 hne
  exact ⟨H.1, H.2.1, by decide, H.2.2.1 (by decide), hne, Hne.1, Hne.2.1, Hne.2.2.1⟩

/-- Counterexample to C7 as stated: with tasks `A` and `B` (2 tasks), after
only task `A` has completed, the recorded result count is 1 (not 2), the
coordinator is still running (`done_event` clear) — yet task `A`'s own
channel has already been closed by `A`'s completion callback. -/
theorem claim_c7_counterexample :
    (runServerSteps 0 2 [tbOkA] (initState [tbOkA, tbOkB])).task_results.length = 1 ∧
    (1 : Nat) < 2 ∧
    (runServerSteps 0 2 [tbOkA] (initState [tbOkA, tbOkB])).done_event = false ∧
    managerClosed "A" (runServerSteps 0 2 [tbOkA] (initState [tbOkA, tbOkB])) = true := by
  decide

/-- Claim C7 as amended: each task's own channel is closed by that task's
completion callback as soon as its result is recorded — not when the batch
finishes. The updates channel stays open throughout the run, `done_event`
is clear while the result count is below the task count and set once it
reaches it, and when the run finishes the coordinator closes every
per-task channel (again) and the updates channel and returns one result
per task (in completion order, no guaranteed order). -/
theorem claim_c7_amended_per_task_close (cmd : Nat)
    (tasks schedule p q : List TaskBehavior) (tb : TaskBehavior)
    (hsplit : schedule = p ++ q) (hperm : schedule.Perm tasks) :
    ((runServerSteps cmd tasks.length p (initState tasks)).updates_manager.is_closed
      = false) ∧
    (p.length < tasks.length →
      (runServerSteps cmd tasks.length p (initState tasks)).done_event = false) ∧
    (tasks.length ≤ p.length → p ≠ [] →
      (runServerSteps cmd tasks.length p (initState tasks)).done_event = true) ∧
    (tb ∈ p →
      managerClosed tb.zs.id
        (runServerSteps cmd tasks.length p (initState tasks)) = true) ∧
    ((run_benchmark_worker_pool_with_server cmd tasks
        schedule).updates_manager.is_closed = true) ∧
    (tb ∈ tasks →
      managerClosed tb.zs.id
        (run_benchmark_worker_pool_with_server cmd tasks schedule) = true) ∧
    ((run_benchmark_worker_pool_with_server cmd tasks schedule).task_results.length
      = tasks.length) := by
  have hmemtasks : ∀ x, x ∈ p → x ∈ tasks := by
    intro x hx
    apply hperm.mem_iff.mp
    rw [hsplit]
    exact List.mem_append_left q hx
  refine ⟨?_, ?_, ?_, ?_, ?_, ?_, ?_⟩
  · rw [runServerSteps_updates_is_closed]
    rfl
  · intro hlt
    apply runServerSteps_done_event_false
    · rfl
    · simpa [initState] using hlt
  · intro hle hne
    apply runServerSteps_done_event_true
    · simpa [initState] using hle
    · exact hne
  · intro hmem
    exact runServerSteps_mem_closed cmd tasks.length p tb (initState tasks) hmem
      (initState_managerPresent tasks tb (hmemtasks tb hmem))
  · exact finalClose_updates_is_closed _
  · intro hmem
    apply finalClose_managerClosed
    rw [runServerSteps_managerPresent]
    exact initState_managerPresent tasks tb hmem
  · show (finalClose (runServerSteps cmd tasks.length schedule
      (initState tasks))).task_results.length = tasks.length
    rw [finalClose_task_results, runServerSteps_results_length]
    simp only [initState, List.length_nil, Nat.zero_add]
    exact hperm.length_eq

/-- Witness for the amended C7 on the concrete 2-task batch, observed
after the first completion (prefix `[B]`) and at the end of the run. -/
theorem claim_c7_witness :
    ([tbOkB, tbOkA] : List TaskBehavior) = [tbOkB] ++ [tbOkA] ∧
    ((runServerSteps 0 2 [tbOkB] (initState [tbOkA, tbOkB])).updates_manager.is_closed
      = false) ∧
    ((runServerSteps 0 2 [tbOkB] (initState [tbOkA, tbOkB])).done_event = false) ∧
    (managerClosed "B" (runServerSteps 0 2 [tbOkB] (initState [tbOkA, tbOkB])) = true) ∧
    ((runServerSteps 0 2 [tbOkB, tbOkA] (initState [tbOkA, tbOkB])).done_event = true) ∧
    ((run_benchmark_worker_pool_with_server 0 [tbOkA, tbOkB]
        [tbOkB, tbOkA]).updates_manager.is_closed = true) ∧
    (managerClosed "B" (run_benchmark_worker_pool_with_server 0 [tbOkA, tbOkB]
        [tbOkB, tbOkA]) = true) ∧
    ((run_benchmark_worker_pool_with_server 0 [tbOkA, tbOkB]
        [tbOkB, tbOkA]).task_results.length = 2) := by
  have H := claim_c7_amended_per_task_close 0 [tbOkA, tbOkB] [tbOkB, tbOkA]
    [tbOkB] [tbOkA] tbOkB rfl (List.Perm.swap tbOkA tbOkB [])
  have H2 := claim_c7_amended_per_task_close 0 [tbOkA, tbOkB] [tbOkB, tbOkA]
    [tbOkB, tbOkA] [] tbOkB (by simp) (List.Perm.swap tbOkA tbOkB [])
  refine ⟨rfl, H.1, H.2.1 (by decide), ?_, ?_, H.2.2.2.2.1, ?_, H.2.2.2.2.2.2⟩
  · exact H.2.2.2.1 (List.mem_singleton.mpr rfl)
  · exact H2.2.2.1 (by decide) (by intro hc; cases hc)
  · exact H.2.2.2.2.2.1 (List.mem_cons_of_mem tbOkA (List.mem_singleton.mpr rfl))

theorem logFn_updates_history (id : String) (s : String) (st : CoordState) :
    (logFn id s st).updates_manager.history =
      st.updates_manager.history ++
        [{ task_id := id, payload := TaskUpdatePayload.log s }] := by
  simp [logFn, write_noFail_state]

/-- Server-mode behaviour of a task whose `run_and_judge` raises, with the
formatted traceback `"TRACE"`, after writing one chunk to its own channel. -/
def tbErr : TaskBehavior :=
  { zs := zsB, writes := [7], logs := ["progress"], outcome := Except.error "TRACE" }

/-- Server-mode behaviour of a task with id `A` whose `run_and_judge`
raises with formatted traceback `"TRACE"` before producing any output. -/
def tbErrA : TaskBehavior :=
  { zs := zsA, writes := [], logs := [], outcome := Except.error "TRACE" }

/-- Counterexample to C2 as stated: in the served coordinator, a task
whose unit of work raises does NOT get the failure trace logged to its own
channel. Task `A` raises with trace `"TRACE"`; after its full lifecycle
its own channel's history is empty (the trace is nowhere in it), while the
trace was published on the shared updates channel as a log event. -/
theorem claim_c2_counterexample :
    lookupM "A" (stepTask 0 1 tbErrA (initState [tbErrA])).task_managers =
      some { history := [], websockets := [], disconnect_events := [],
             is_closed := true } ∧
    (stepTask 0 1 tbErrA (initState [tbErrA])).updates_manager.history =
      [{ task_id := "A", payload := TaskUpdatePayload.started },
       { task_id := "A", payload := TaskUpdatePayload.log "TRACE" },
       { task_id := "A", payload := TaskUpdatePayload.done "error" }] := by
  constructor
  · rfl
  · rfl

/-- Claim C2 as amended: an exception in a task's unit of work is caught
at the task boundary and never propagates (the task still yields exactly
one result); the result has status `"error"`, an empty message sequence
and both timestamps recorded; the formatted traceback is passed to the
task's `log` callback — which in headless mode appends it to the process
log and in server mode publishes it as a log event tagged with the task's
id on the shared updates channel; the task's own byte channel receives
only what the runner wrote, never the trace. -/
theorem claim_c2_amended_error_isolated (cmd n : Nat) (zs : ZeroShotTask)
    (raj : RajFun) (e e2 : TaskEnv) (tr : String) (tb : TaskBehavior)
    (st : CoordState) (m : WSManager Nat)
    (hraj : raj { e with clock := e.clock + 1 } = (e2, Except.error tr))
    (ho : tb.outcome = Except.error tr)
    (hm : lookupM tb.zs.id st.task_managers = some m) :
    ((run_task zs cmd raj e).2.status = "error") ∧
    ((run_task zs cmd raj e).2.messages = []) ∧
    ((run_task zs cmd raj e).2.start = e.clock) ∧
    ((run_task zs cmd raj e).2.end_ = e2.clock) ∧
    ((run_task zs cmd raj e).1.logged = e2.logged ++ [tr]) ∧
    ((runTaskServer cmd tb st).2.status = "error") ∧
    ((runTaskServer cmd tb st).2.messages = []) ∧
    ((runTaskServer cmd tb st).2.start < (runTaskServer cmd tb st).2.end_) ∧
    (lookupM tb.zs.id (runTaskServer cmd tb st).1.task_managers =
      some { m with history := m.history ++ tb.writes }) ∧
    ((runTaskServer cmd tb st).1.updates_manager.history =
      st.updates_manager.history ++
        tb.logs.map (fun s =>
          { task_id := tb.zs.id, payload := TaskUpdatePayload.log s : TaskUpdate }) ++
        [{ task_id := tb.zs.id, payload := TaskUpdatePayload.log tr }]) ∧
    ((stepTask cmd n tb st).task_results =
      st.task_results ++ [(runTaskServer cmd tb (startFn tb.zs.id st)).2]) := by
  refine ⟨?_, ?_, ?_, ?_, ?_, ?_, ?_, ?_, ?_, ?_, ?_⟩
  · simp [run_task, hraj]
  · simp [run_task, hraj]
  · rfl
  · simp [run_task, hraj]
  · simp [run_task, hraj]
  · simp [runTaskServer, ho]
  · simp [runTaskServer, ho]
  · rw [runTaskServer_start, runTaskServer_end]
    exact Nat.lt_succ_self _
  · rw [runTaskServer_task_managers]
    exact lookupM_writeTo_fold tb.writes tb.zs.id st.task_managers m hm
  · simp only [runTaskServer, ho]
    rw [logFn_updates_history, logFn_fold_updates_history]
  · exact stepTask_task_results cmd n tb st

/-- Witness for the amended C2 at concrete failing behaviours in both
execution modes. -/
theorem claim_c2_witness :
    ((fun env => (env, Except.error "TRACE")) : RajFun)
        { logged := ([] : List String), clock := 0 + 1 } =
      ({ logged := [], clock := 1 }, Except.error "TRACE") ∧
    tbErr.outcome = Except.error "TRACE" ∧
    lookupM "B" (initState [tbErr]).task_managers = some (WSManager.init Nat) ∧
    ((run_task zsA 0 (fun env => (env, Except.error "TRACE"))
        { logged := [], clock := 0 }).2.status = "error") ∧
    ((run_task zsA 0 (fun env => (env, Except.error "TRACE"))
        { logged := [], clock := 0 }).2.messages = []) ∧
    ((run_task zsA 0 (fun env => (env, Except.error "TRACE"))
        { logged := [], clock := 0 }).1.logged = [] ++ ["TRACE"]) ∧
    ((runTaskServer 0 tbErr (initState [tbErr])).2.status = "error") ∧
    (lookupM "B" (runTaskServer 0 tbErr (initState [tbErr])).1.task_managers =
      some { WSManager.init Nat with history := [] ++ [7] }) ∧
    ((runTaskServer 0 tbErr (initState [tbErr])).1.updates_manager.history =
      [] ++ [{ task_id := "B", payload := TaskUpdatePayload.log "progress" }] ++
      [{ task_id := "B", payload := TaskUpdatePayload.log "TRACE" }]) := by
  have H := claim_c2_amended_error_isolated 0 1 zsA
    (fun env => (env, Except.error "TRACE")) { logged := [], clock := 0 }
    { logged := [], clock := 1 } "TRACE" tbErr (initState [tbErr])
    (WSManager.init Nat) rfl rfl rfl
  exact ⟨rfl, rfl, rfl, H.1, H.2.1, H.2.2.2.2.1, H.2.2.2.2.2.1,
    H.2.2.2.2.2.2.2.2.1, H.2.2.2.2.2.2.2.2.2.1⟩

/-- Counterexample to C9 as stated: for the unknown task id `"Z"`, only
the `view` endpoint surfaces an explicit not-found failure
(`HTTPException(404)`); the `logs` and `stop` endpoints instead raise an
uncaught `KeyError` on the `task_managers` dict — an internal error for
that request, not a not-found failure. -/
theorem claim_c9_counterexample :
    view [("A", zsA)] 0 "Z" =
      Except.error (HandlerError.httpNotFound ("no task with id " ++ "Z" ++ "!")) ∧
    logs (fun _ => false) [("A", WSManager.init Nat)] "Z" 7 =
      Except.error (HandlerError.pyKeyError "Z") ∧
    stop [("A", WSManager.init Nat)] "Z" =
      Except.error (HandlerError.pyKeyError "Z") ∧
    stop [("A", WSManager.init Nat)] "Z" ≠
      Except.error (HandlerError.httpNotFound ("no task with id " ++ "Z" ++ "!")) := by
  refine ⟨rfl, rfl, rfl, ?_⟩
  intro hc
  simp [stop, lookupM] at hc

/-- Claim C9 as amended: an observer request naming an unknown task id
fails for that observer only — `view` with an explicit 404 not-found,
`logs` and `stop` with an uncaught `KeyError` (surfaced by the serving
framework as an internal error closing that one request/connection, the
serving process surviving) — and the error paths touch no channel and no
pool state, so other observers and the worker pool are unaffected. -/
theorem claim_c9_amended_unknown_task_id (zs_map : List (String × ZeroShotTask))
    (managers : List (String × WSManager Nat)) (cmd : Nat) (id : String)
    (ws : Nat) (failed : Nat → Bool)
    (h1 : lookupZS id zs_map = none) (h2 : lookupM id managers = none) :
    view zs_map cmd id =
      Except.error (HandlerError.httpNotFound ("no task with id " ++ id ++ "!")) ∧
    logs failed managers id ws = Except.error (HandlerError.pyKeyError id) ∧
    stop managers id = Except.error (HandlerError.pyKeyError id) := by
  refine ⟨?_, ?_, ?_⟩
  · simp [view, h1]
  · simp [logs, h2]
  · simp [stop, h2]

/-- Witness for the amended C9 at the concrete unknown id `"Z"` against a
one-task registry. -/
theorem claim_c9_witness :
    lookupZS "Z" [("A", zsA)] = none ∧
    lookupM "Z" [("A", WSManager.init Nat)] = none ∧
    view [("A", zsA)] 0 "Z" =
      Except.error (HandlerError.httpNotFound ("no task with id " ++ "Z" ++ "!")) ∧
    logs (fun _ => false) [("A", WSManager.init Nat)] "Z" 7 =
      Except.error (HandlerError.pyKeyError "Z") ∧
    stop [("A", WSManager.init Nat)] "Z" =
      Except.error (HandlerError.pyKeyError "Z") := by
  have H := claim_c9_amended_unknown_task_id [("A", zsA)]
    [("A", WSManager.init Nat)] 0 "Z" 7 (fun _ => false) (by decide) rfl
  exact ⟨by decide, rfl, H.1, H.2.1, H.2.2⟩
